import Mathlib

/-
Verification of the process-supervision and event-streaming layer of
containerd/go-runc.

The embedding covers:
  * monitor.go — defaultMonitor.Start and defaultMonitor.Wait, modelled as a
    transition system over the two goroutines (the reaper and the canceller)
    plus the environment events (context cancellation, process exit, the
    escalation timer), and the status/signal derivation from the result of
    exec.Cmd.Wait with the Linux syscall.WaitStatus encoding;
  * the Events decode loop (runc.go, Runc.Events) over a stream of
    json.Decoder results;
  * the start-failure paths of both components, and the extractStatus helper
    of runc_test.go.

Go select semantics note: when several cases of a select are ready, Go picks
one uniformly at random; there is no priority between cases.  The transition
system therefore enables every ready branch of each select, and the choice is
the nondeterminism of the step relation.  os.Process.Signal refuses to signal
a process that has already been waited for (it returns ErrProcessDone without
issuing the kill syscall); this is modelled by the `delivered` flag of a
signal event, true exactly when the process had not been reaped at the moment
of the call.
-/

/-! ## Linux wait-status decoding (syscall.WaitStatus) -/

/-- syscall.WaitStatus.Exited on Linux: the low seven bits are zero. -/
def wsExited (w : Nat) : Bool := w % 128 == 0

/-- syscall.WaitStatus.Signaled on Linux: the low seven bits are neither
0x7f (stopped) nor 0 (exited). -/
def wsSignaled (w : Nat) : Bool := (w % 128 != 127) && (w % 128 != 0)

/-- syscall.WaitStatus.ExitStatus on Linux: bits 8..15 when the process
exited normally, and -1 otherwise (in particular for a signal-caused
termination). -/
def wsExitStatus (w : Nat) : Int :=
  if wsExited w then ((w / 256) % 256 : Nat) else -1

/-- syscall.WaitStatus.Signal on Linux: the terminating signal number when
the termination was signal-caused, and -1 otherwise. -/
def wsSignal (w : Nat) : Int :=
  if wsSignaled w then (w % 128 : Nat) else -1

/-- The error returned by exec.Cmd.Wait: either an exec.ExitError, whose
Sys() may expose a raw syscall.WaitStatus, or any other error. -/
inductive WaitErr where
  | exitError (sys : Option Nat)
  | other
deriving DecidableEq

/-- Status and signal computed by the reaper goroutine of
defaultMonitor.Start (monitor.go lines 71-84): status 0 and nil signal when
Wait returns no error; default status 255 on an error; both fields
overwritten from the decoded WaitStatus when the error is an ExitError
exposing one. -/
def waitStatusSignal : Option WaitErr → Int × Option Int
  | none => (0, none)
  | some (WaitErr.exitError (some w)) => (wsExitStatus w, some (wsSignal w))
  | some (WaitErr.exitError none) => (255, none)
  | some WaitErr.other => (255, none)

/-- The Exit record of monitor.go: timestamp, pid, numeric status, optional
terminating signal. -/
structure Exit where
  timestamp : Nat
  pid : Int
  status : Int
  signal : Option Int
deriving DecidableEq

/-- The Exit record the reaper publishes (monitor.go lines 85-90). -/
def mkExit (t : Nat) (pid : Int) (werr : Option WaitErr) : Exit :=
  { timestamp := t
    pid := pid
    status := (waitStatusSignal werr).1
    signal := (waitStatusSignal werr).2 }

/-- defaultMonitor.Wait (monitor.go lines 94-97): receive the Exit record
and return its Status together with a nil error; every other field of the
record is discarded. -/
def monitorWait (e : Exit) : Int × Option WaitErr := (e.status, none)

/-! ## The monitor transition system (defaultMonitor.Start) -/

/-- The configuration of a defaultMonitor: the optional graceful signal and
the kill timeout (a Go time.Duration, possibly zero or negative). -/
structure MonitorConfig where
  defaultSignal : Option Int
  killTimeout : Int
deriving DecidableEq

/-- Program counter of the reaper goroutine (monitor.go lines 70-91): block
in c.Wait, send the Exit record, close the delivery channel, close the
waitDone marker. -/
inductive ReaperPC where
  | atWait
  | atPublish
  | atCloseEc
  | atCloseDone
  | finished
deriving DecidableEq

/-- Program counter of the canceller goroutine (monitor.go lines 51-69):
the outer select between ctx.Done and waitDone, the inner select between
time.After(killTimeout) and waitDone, done. -/
inductive CancellerPC where
  | atSelect
  | atInnerSelect
  | finished
deriving DecidableEq

/-- The three termination-signal calls the canceller can make: the graceful
c.Process.Signal(m.defaultSignal), the immediate
c.Process.Signal(unix.SIGKILL) when no graceful signal is configured, and
the timer-driven c.Process.Kill(). -/
inductive SigKind where
  | graceful
  | immediateKill
  | timerKill
deriving DecidableEq

/-- One termination-signal call: its kind, and whether the OS delivered it.
os.Process.Signal refuses to signal a process already waited for, so the
call is delivered exactly when the process had not been reaped. -/
structure SigEvent where
  kind : SigKind
  delivered : Bool
deriving DecidableEq

/-- State of one supervised process: context, the reaper-side facts (reap,
the buffered delivery channel `published`, its closure, the waitDone
marker), the escalation timer, both program counters, which branches the
canceller observed, and the log of signal calls. -/
structure MonState where
  cancelled : Bool
  reaped : Bool
  waitRes : Option WaitErr
  published : List Exit
  ecClosed : Bool
  ecCloseCount : Nat
  doneClosed : Bool
  timerFired : Bool
  rpc : ReaperPC
  cpc : CancellerPC
  tookCancelBranch : Bool
  innerTookTimer : Option Bool
  sigLog : List SigEvent
deriving DecidableEq

/-- The state right after a successful c.Start() in defaultMonitor.Start:
nothing has happened yet, both goroutines at their first suspension point. -/
def initState : MonState :=
  { cancelled := false
    reaped := false
    waitRes := none
    published := []
    ecClosed := false
    ecCloseCount := 0
    doneClosed := false
    timerFired := false
    rpc := ReaperPC.atWait
    cpc := CancellerPC.atSelect
    tookCancelBranch := false
    innerTookTimer := none
    sigLog := [] }

/-- Record a termination-signal call: delivered exactly when the process has
not yet been reaped (os.Process.Signal returns ErrProcessDone otherwise). -/
def appendSig (s : MonState) (k : SigKind) : MonState :=
  { s with sigLog := s.sigLog ++ [{ kind := k, delivered := !s.reaped }] }

/-- The canceller observes ctx.Done in the outer select (monitor.go lines
53-66): with no graceful signal configured, one immediate SIGKILL; otherwise
the graceful signal, then, when the kill timeout is positive, the inner
select is entered. -/
def cancellerCancelStep (cfg : MonitorConfig) (s : MonState) : MonState :=
  if cfg.defaultSignal = none then
    { appendSig s SigKind.immediateKill with
      cpc := CancellerPC.finished, tookCancelBranch := true }
  else
    if 0 < cfg.killTimeout then
      { appendSig s SigKind.graceful with
        cpc := CancellerPC.atInnerSelect, tookCancelBranch := true }
    else
      { appendSig s SigKind.graceful with
        cpc := CancellerPC.finished, tookCancelBranch := true }

/-- The atomic steps of the system: environment events (cancellation, the
process being reaped inside c.Wait, the escalation timer firing) and the
statements of the two goroutines.  Both branches of each select are enabled
whenever their channel is ready, reflecting the random choice Go makes. -/
inductive MonAction where
  | envCancel
  | reap (werr : Option WaitErr)
  | publish (t : Nat)
  | closeEc
  | closeDone
  | selectCancel
  | selectDone
  | timerFire
  | innerTimer
  | innerDone

/-- One step of the transition system; none when the action is not enabled
in the given state. -/
def monStep (cfg : MonitorConfig) (pid : Int) (a : MonAction) (s : MonState) :
    Option MonState :=
  match a with
  | MonAction.envCancel =>
      if s.cancelled = false then some { s with cancelled := true } else none
  | MonAction.reap werr =>
      if s.rpc = ReaperPC.atWait then
        some { s with reaped := true, waitRes := werr, rpc := ReaperPC.atPublish }
      else none
  | MonAction.publish t =>
      if s.rpc = ReaperPC.atPublish then
        some { s with
          published := s.published ++ [mkExit t pid s.waitRes]
          rpc := ReaperPC.atCloseEc }
      else none
  | MonAction.closeEc =>
      if s.rpc = ReaperPC.atCloseEc then
        some { s with
          ecClosed := true
          ecCloseCount := s.ecCloseCount + 1
          rpc := ReaperPC.atCloseDone }
      else none
  | MonAction.closeDone =>
      if s.rpc = ReaperPC.atCloseDone then
        some { s with doneClosed := true, rpc := ReaperPC.finished }
      else none
  | MonAction.selectCancel =>
      if s.cpc = CancellerPC.atSelect ∧ s.cancelled = true then
        some (cancellerCancelStep cfg s)
      else none
  | MonAction.selectDone =>
      if s.cpc = CancellerPC.atSelect ∧ s.doneClosed = true then
        some { s with cpc := CancellerPC.finished }
      else none
  | MonAction.timerFire =>
      if s.cpc = CancellerPC.atInnerSelect ∧ s.timerFired = false then
        some { s with timerFired := true }
      else none
  | MonAction.innerTimer =>
      if s.cpc = CancellerPC.atInnerSelect ∧ s.timerFired = true then
        some { appendSig s SigKind.timerKill with
          cpc := CancellerPC.finished, innerTookTimer := some true }
      else none
  | MonAction.innerDone =>
      if s.cpc = CancellerPC.atInnerSelect ∧ s.doneClosed = true then
        some { s with cpc := CancellerPC.finished, innerTookTimer := some false }
      else none

/-- Run a list of actions from a state; none when one is not enabled. -/
def runTrace (cfg : MonitorConfig) (pid : Int) :
    List MonAction → MonState → Option MonState
  | [], s => some s
  | a :: rest, s =>
      match monStep cfg pid a s with
      | some s1 => runTrace cfg pid rest s1
      | none => none

/-- A state the monitor can reach from a successful Start. -/
abbrev MonReachable (cfg : MonitorConfig) (pid : Int) (s : MonState) : Prop :=
  ∃ acts, runTrace cfg pid acts initState = some s

/-- Number of signal calls actually delivered to the process. -/
def deliveredCount (l : List SigEvent) : Nat :=
  (l.filter (fun ev => ev.delivered)).length

/-- Number of signal calls of a given kind made by the canceller. -/
def kindCount (l : List SigEvent) (k : SigKind) : Nat :=
  (l.map SigEvent.kind).count k

/-- The exact sequence of signal kinds the canceller has emitted, as a
function of the branches it observed. -/
def expectedLog (dsig : Option Int) (took : Bool) (inner : Option Bool) :
    List SigKind :=
  if took = false then []
  else
    match dsig with
    | none => [SigKind.immediateKill]
    | some _ =>
        SigKind.graceful :: (if inner = some true then [SigKind.timerKill] else [])

/-- The inductive invariant of the monitor transition system. -/
def MonInv (cfg : MonitorConfig) (s : MonState) : Prop :=
  (s.doneClosed = true → s.reaped = true) ∧
  (s.rpc = ReaperPC.atWait →
    s.published = [] ∧ s.reaped = false ∧ s.ecClosed = false ∧ s.doneClosed = false) ∧
  (s.rpc = ReaperPC.atPublish →
    s.published = [] ∧ s.reaped = true ∧ s.ecClosed = false ∧ s.doneClosed = false) ∧
  (s.rpc = ReaperPC.atCloseEc →
    s.published.length = 1 ∧ s.reaped = true ∧ s.ecClosed = false ∧ s.doneClosed = false) ∧
  (s.rpc = ReaperPC.atCloseDone →
    s.published.length = 1 ∧ s.reaped = true ∧ s.ecClosed = true ∧ s.doneClosed = false) ∧
  (s.rpc = ReaperPC.finished →
    s.published.length = 1 ∧ s.reaped = true ∧ s.ecClosed = true ∧ s.doneClosed = true) ∧
  (s.ecCloseCount = if s.ecClosed = true then 1 else 0) ∧
  (∀ e ∈ s.published, -1 ≤ e.status ∧ e.status ≤ 255) ∧
  (s.sigLog.map SigEvent.kind
    = expectedLog cfg.defaultSignal s.tookCancelBranch s.innerTookTimer) ∧
  (s.cpc = CancellerPC.atSelect →
    s.tookCancelBranch = false ∧ s.innerTookTimer = none) ∧
  (s.cpc = CancellerPC.atInnerSelect →
    s.tookCancelBranch = true ∧ s.innerTookTimer = none ∧ cfg.defaultSignal ≠ none) ∧
  (s.innerTookTimer ≠ none →
    s.cpc = CancellerPC.finished ∧ s.tookCancelBranch = true ∧ cfg.defaultSignal ≠ none)

/-! ## The Events decode loop (Runc.Events) -/

/-- A decoded telemetry record.  The Event payload (kind, container id,
stats) is opaque to the decode loop; the concrete struct lives in events.go. -/
structure Event where
  kind : Nat
  id : Nat
deriving DecidableEq

/-- One result of json.Decoder.Decode inside the Events goroutine: a decoded
Event, io.EOF, or any other error.  A non-EOF error may be a malformed
record or an I/O-level read failure of the underlying pipe; the flag records
which, and the loop itself cannot observe it (it only compares the error
against io.EOF). -/
inductive DecodeRes where
  | ok (e : Event)
  | eofErr
  | decodeErr (ioLevel : Bool)
deriving DecidableEq

/-- The decode loop of Runc.Events: send each decoded event on the channel,
return on io.EOF, log any other error and continue. -/
def eventLoop : List DecodeRes → List Event
  | [] => []
  | DecodeRes.ok e :: rest => e :: eventLoop rest
  | DecodeRes.eofErr :: _ => []
  | DecodeRes.decodeErr _ :: rest => eventLoop rest

/-- The well-formed records of a stream segment, in order. -/
def okEvents : List DecodeRes → List Event
  | [] => []
  | DecodeRes.ok e :: rest => e :: okEvents rest
  | DecodeRes.eofErr :: rest => okEvents rest
  | DecodeRes.decodeErr _ :: rest => okEvents rest

/-- What the Events goroutine leaves behind once it returns: the events it
sent, and the deferred cleanup (close(c); rd.Close(); cmd.Wait()). -/
structure EventsRun where
  delivered : List Event
  channelClosed : Bool
  pipeClosed : Bool
  procReaped : Bool
deriving DecidableEq

/-- The Events goroutine on a finite stream of decoder results: run the
decode loop, then the deferred cleanup closes the channel, closes the pipe
and reaps the subprocess. -/
def runEventsLoop (stream : List DecodeRes) : EventsRun :=
  { delivered := eventLoop stream
    channelClosed := true
    pipeClosed := true
    procReaped := true }

/-! ## Start-failure paths -/

/-- An opaque Go error value. -/
structure GoErr where
  code : Nat
deriving DecidableEq

/-- What a call to defaultMonitor.Start leaves behind: whether a delivery
channel was returned, the error, and how many goroutines were spawned. -/
structure MonStartResult where
  channel : Bool
  err : Option GoErr
  goroutines : Nat
deriving DecidableEq

/-- defaultMonitor.Start at the granularity of its two paths (monitor.go
lines 45-92): when c.Start() fails the error is returned with a nil channel
and nothing else happens; otherwise the channel is made and the reaper and
canceller goroutines are spawned. -/
def monitorStartOutcome (startErr : Option GoErr) : MonStartResult :=
  match startErr with
  | some e => { channel := false, err := some e, goroutines := 0 }
  | none => { channel := true, err := none, goroutines := 2 }

/-- What a call to Runc.Events leaves behind before the goroutine runs. -/
structure EventsStartResult where
  channel : Bool
  err : Option GoErr
  pipeOpened : Bool
  pipeClosed : Bool
  loopSpawned : Bool
deriving DecidableEq

/-- Runc.Events start paths: StdoutPipe failure returns at once; a
cmd.Start() failure closes the already-opened pipe before returning; on
success the channel is created and the decode goroutine spawned. -/
def eventsStartOutcome (pipeErr startErr : Option GoErr) : EventsStartResult :=
  match pipeErr with
  | some e =>
      { channel := false, err := some e
        pipeOpened := false, pipeClosed := false, loopSpawned := false }
  | none =>
      match startErr with
      | some e =>
          { channel := false, err := some e
            pipeOpened := true, pipeClosed := true, loopSpawned := false }
      | none =>
          { channel := true, err := none
            pipeOpened := true, pipeClosed := false, loopSpawned := true }

/-! ## Status extraction (runc_test.go extractStatus) -/

/-- Modelled from the spec: ExitError, the command-exit failure type with a
public numeric Status, as described in sections 4.3 and 7 of the design
(its definition lives in the repository file that is not under src/; only
its use in runc_test.go extractStatus is).  A generic failure is a distinct
constructor, distinguishable by type. -/
inductive InvocationError where
  | exitError (status : Int)
  | generic (code : Nat)
deriving DecidableEq

/-- extractStatus (runc_test.go lines 261-270): 0 for a nil error, the
ExitError status when the error is a command-exit failure, and -1 for any
other error. -/
def extractStatus : Option InvocationError → Int
  | none => 0
  | some (InvocationError.exitError st) => st
  | some (InvocationError.generic _) => -1

/-! ## Concrete states for witnesses and counterexamples -/

/-- The default monitor configuration: SIGTERM with a positive kill timeout. -/
def cfgTerm : MonitorConfig := { defaultSignal := some 15, killTimeout := 10 }

/-- State after: cancellation, then the reaper runs to completion (reap,
publish, close channel, close waitDone) before the canceller is scheduled. -/
def c1S5 : MonState :=
  { cancelled := true
    reaped := true
    waitRes := none
    published := [{ timestamp := 0, pid := 1, status := 0, signal := none }]
    ecClosed := true
    ecCloseCount := 1
    doneClosed := true
    timerFired := false
    rpc := ReaperPC.finished
    cpc := CancellerPC.atSelect
    tookCancelBranch := false
    innerTookTimer := none
    sigLog := [] }

/-- State after the canceller then observes ctx.Done in the outer select,
although waitDone is already closed, and makes the graceful signal call. -/
def c1S6 : MonState :=
  { cancelled := true
    reaped := true
    waitRes := none
    published := [{ timestamp := 0, pid := 1, status := 0, signal := none }]
    ecClosed := true
    ecCloseCount := 1
    doneClosed := true
    timerFired := false
    rpc := ReaperPC.finished
    cpc := CancellerPC.atInnerSelect
    tookCancelBranch := true
    innerTookTimer := none
    sigLog := [{ kind := SigKind.graceful, delivered := false }] }

/-- State after a natural exit with no cancellation. -/
def c2S : MonState :=
  { cancelled := false
    reaped := true
    waitRes := none
    published := [{ timestamp := 5, pid := 1, status := 0, signal := none }]
    ecClosed := true
    ecCloseCount := 1
    doneClosed := true
    timerFired := false
    rpc := ReaperPC.finished
    cpc := CancellerPC.atSelect
    tookCancelBranch := false
    innerTookTimer := none
    sigLog := [] }

/-- State after cancellation, graceful signal, timer expiry and the
timer-driven kill, the process still not having exited. -/
def c4S : MonState :=
  { cancelled := true
    reaped := false
    waitRes := none
    published := []
    ecClosed := false
    ecCloseCount := 0
    doneClosed := false
    timerFired := true
    rpc := ReaperPC.atWait
    cpc := CancellerPC.finished
    tookCancelBranch := true
    innerTookTimer := some true
    sigLog := [{ kind := SigKind.graceful, delivered := true },
               { kind := SigKind.timerKill, delivered := true }] }

/-- State after the process is killed by signal 9 (raw wait status 9) and
the reaper publishes the Exit record: its status is -1. -/
def c7S : MonState :=
  { cancelled := false
    reaped := true
    waitRes := some (WaitErr.exitError (some 9))
    published := [{ timestamp := 0, pid := 1, status := -1, signal := some 9 }]
    ecClosed := true
    ecCloseCount := 1
    doneClosed := true
    timerFired := false
    rpc := ReaperPC.finished
    cpc := CancellerPC.atSelect
    tookCancelBranch := false
    innerTookTimer := none
    sigLog := [] }

/-- Two concrete telemetry events. -/
def evA : Event := { kind := 0, id := 0 }

/-- A second concrete telemetry event. -/
def evB : Event := { kind := 0, id := 1 }

/-! ## Helper lemmas -/

/-- The status computed from any wait result lies in -1..255. -/
theorem waitStatusSignal_fst_bounds (werr : Option WaitErr) :
    -1 ≤ (waitStatusSignal werr).1 ∧ (waitStatusSignal werr).1 ≤ 255 := by
  rcases werr with _ | e
  · simp [waitStatusSignal]
  · rcases e with ws | _
    · rcases ws with _ | w
      · simp [waitStatusSignal]
      · simp only [waitStatusSignal, wsExitStatus]
        split <;> constructor <;> omega
    · simp [waitStatusSignal]

/-- The initial state satisfies the invariant. -/
theorem monInv_initState (cfg : MonitorConfig) : MonInv cfg initState := by
  refine ⟨?_, ?_, ?_, ?_, ?_, ?_, ?_, ?_, ?_, ?_, ?_, ?_⟩ <;>
    simp [initState, expectedLog]

/-- Every enabled step preserves the invariant. -/
theorem monInv_step (cfg : MonitorConfig) (pid : Int) (a : MonAction)
    (s t : MonState) (h : monStep cfg pid a s = some t) (hinv : MonInv cfg s) :
    MonInv cfg t := by
  obtain ⟨i1, i2, i3, i4, i5, i6, i7, i8, i9, i10, i11, i12⟩ := hinv
  cases a with
  | envCancel =>
      simp only [monStep] at h
      split at h
      · injection h with h
        subst h
        exact ⟨i1, i2, i3, i4, i5, i6, i7, i8, i9, i10, i11, i12⟩
      · cases h
  | reap werr =>
      simp only [monStep] at h
      split at h
      case isTrue hc =>
        injection h with h
        subst h
        obtain ⟨hp, hr, he, hd⟩ := i2 hc
        refine ⟨fun _ => rfl, ?_, ?_, ?_, ?_, ?_, i7, i8, i9, i10, i11, i12⟩
        · intro hx; cases hx
        · intro _; exact ⟨hp, rfl, he, hd⟩
        · intro hx; cases hx
        · intro hx; cases hx
        · intro hx; cases hx
      case isFalse => cases h
  | publish t0 =>
      simp only [monStep] at h
      split at h
      case isTrue hc =>
        injection h with h
        subst h
        obtain ⟨hp, hr, he, hd⟩ := i3 hc
        refine ⟨fun hdc => i1 hdc, ?_, ?_, ?_, ?_, ?_, i7, ?_, i9, i10, i11, i12⟩
        · intro hx; cases hx
        · intro hx; cases hx
        · intro _
          refine ⟨by rw [hp]; rfl, hr, he, hd⟩
        · intro hx; cases hx
        · intro hx; cases hx
        · intro e he2
          rcases List.mem_append.1 he2 with h1 | h2
          · exact i8 e h1
          · rcases List.mem_singleton.1 h2 with rfl
            exact waitStatusSignal_fst_bounds (s.waitRes)
      case isFalse => cases h
  | closeEc =>
      simp only [monStep] at h
      split at h
      case isTrue hc =>
        injection h with h
        subst h
        obtain ⟨hl, hr, he, hd⟩ := i4 hc
        rw [he] at i7
        simp only [if_neg (by simp : ¬(false = true))] at i7
        refine ⟨fun hdc => i1 hdc, ?_, ?_, ?_, ?_, ?_, ?_, i8, i9, i10, i11, i12⟩
        · intro hx; cases hx
        · intro hx; cases hx
        · intro hx; cases hx
        · intro _; exact ⟨hl, hr, rfl, hd⟩
        · intro hx; cases hx
        · simp [i7]
      case isFalse => cases h
  | closeDone =>
      simp only [monStep] at h
      split at h
      case isTrue hc =>
        injection h with h
        subst h
        obtain ⟨hl, hr, hec, hd⟩ := i5 hc
        refine ⟨fun _ => hr, ?_, ?_, ?_, ?_, ?_, i7, i8, i9, i10, i11, i12⟩
        · intro hx; cases hx
        · intro hx; cases hx
        · intro hx; cases hx
        · intro hx; cases hx
        · intro _; exact ⟨hl, hr, hec, rfl⟩
      case isFalse => cases h
  | selectCancel =>
      simp only [monStep] at h
      split at h
      case isTrue hc =>
        injection h with h
        subst h
        obtain ⟨htk, hit⟩ := i10 hc.1
        have hsl : s.sigLog = [] := by
          rw [htk] at i9
          simpa [expectedLog] using i9
        unfold cancellerCancelStep
        split_ifs with h1 h2
        · refine ⟨i1, i2, i3, i4, i5, i6, i7, i8, ?_, ?_, ?_, ?_⟩
          · simp [appendSig, hsl, expectedLog, h1, hit]
          · intro hx; cases hx
          · intro hx; cases hx
          · intro hx
            exact absurd hit hx
        · refine ⟨i1, i2, i3, i4, i5, i6, i7, i8, ?_, ?_, ?_, ?_⟩
          · rcases hds : cfg.defaultSignal with _ | g
            · exact absurd hds h1
            · simp [appendSig, hsl, expectedLog, hds, hit]
          · intro hx; cases hx
          · intro _
            exact ⟨rfl, hit, h1⟩
          · intro hx
            exact absurd hit hx
        · refine ⟨i1, i2, i3, i4, i5, i6, i7, i8, ?_, ?_, ?_, ?_⟩
          · rcases hds : cfg.defaultSignal with _ | g
            · exact absurd hds h1
            · simp [appendSig, hsl, expectedLog, hds, hit]
          · intro hx; cases hx
          · intro hx; cases hx
          · intro hx
            exact absurd hit hx
      case isFalse => cases h
  | selectDone =>
      simp only [monStep] at h
      split at h
      case isTrue hc =>
        injection h with h
        subst h
        obtain ⟨htk, hit⟩ := i10 hc.1
        refine ⟨i1, i2, i3, i4, i5, i6, i7, i8, i9, ?_, ?_, ?_⟩
        · intro hx; cases hx
        · intro hx; cases hx
        · intro hx
          exact absurd hit hx
      case isFalse => cases h
  | timerFire =>
      simp only [monStep] at h
      split at h
      · injection h with h
        subst h
        exact ⟨i1, i2, i3, i4, i5, i6, i7, i8, i9, i10, i11, i12⟩
      · cases h
  | innerTimer =>
      simp only [monStep] at h
      split at h
      case isTrue hc =>
        injection h with h
        subst h
        obtain ⟨htk, hit, hds⟩ := i11 hc.1
        rcases hdse : cfg.defaultSignal with _ | g
        · exact absurd hdse hds
        have h9 : s.sigLog.map SigEvent.kind = [SigKind.graceful] := by
          rw [htk, hit, hdse] at i9
          simpa [expectedLog] using i9
        refine ⟨i1, i2, i3, i4, i5, i6, i7, i8, ?_, ?_, ?_, ?_⟩
        · simp [appendSig, h9, expectedLog, hdse, htk]
        · intro hx; cases hx
        · intro hx; cases hx
        · intro _; exact ⟨rfl, htk, hds⟩
      case isFalse => cases h
  | innerDone =>
      simp only [monStep] at h
      split at h
      case isTrue hc =>
        injection h with h
        subst h
        obtain ⟨htk, hit, hds⟩ := i11 hc.1
        rcases hdse : cfg.defaultSignal with _ | g
        · exact absurd hdse hds
        have h9 : s.sigLog.map SigEvent.kind = [SigKind.graceful] := by
          rw [htk, hit, hdse] at i9
          simpa [expectedLog] using i9
        refine ⟨i1, i2, i3, i4, i5, i6, i7, i8, ?_, ?_, ?_, ?_⟩
        · simp [h9, expectedLog, htk, hdse]
        · intro hx; cases hx
        · intro hx; cases hx
        · intro _; exact ⟨rfl, htk, hds⟩
      case isFalse => cases h

/-- The invariant holds along any run. -/
theorem monInv_runTrace (cfg : MonitorConfig) (pid : Int) (acts : List MonAction)
    (s t : MonState) (h : runTrace cfg pid acts s = some t) (hinv : MonInv cfg s) :
    MonInv cfg t := by
  induction acts generalizing s with
  | nil =>
      simp only [runTrace] at h
      injection h with h
      subst h
      exact hinv
  | cons a rest ih =>
      simp only [runTrace] at h
      cases hstep : monStep cfg pid a s with
      | none => rw [hstep] at h; cases h
      | some s1 =>
          rw [hstep] at h
          exact ih s1 h (monInv_step cfg pid a s s1 hstep hinv)

/-- Every reachable state satisfies the invariant. -/
theorem monInv_reachable (cfg : MonitorConfig) (pid : Int) (s : MonState)
    (h : MonReachable cfg pid s) : MonInv cfg s := by
  obtain ⟨acts, hr⟩ := h
  exact monInv_runTrace cfg pid acts initState s hr (monInv_initState cfg)

/-- A signal call appended undelivered never changes the delivered count. -/
theorem deliveredCount_append_false (l : List SigEvent) (k : SigKind) :
    deliveredCount (l ++ [{ kind := k, delivered := false }]) = deliveredCount l := by
  simp [deliveredCount]

/-- After the process has been reaped and waitDone closed, every step keeps
both facts and delivers no signal. -/
theorem monStep_preserves_after_done (cfg : MonitorConfig) (pid : Int)
    (a : MonAction) (s t : MonState) (h : monStep cfg pid a s = some t)
    (hr : s.reaped = true) (hd : s.doneClosed = true) :
    t.doneClosed = true ∧ t.reaped = true ∧
      deliveredCount t.sigLog = deliveredCount s.sigLog := by
  cases a with
  | envCancel =>
      simp only [monStep] at h
      split at h
      · injection h with h; subst h; exact ⟨hd, hr, rfl⟩
      · cases h
  | reap werr =>
      simp only [monStep] at h
      split at h
      · injection h with h; subst h; exact ⟨hd, rfl, rfl⟩
      · cases h
  | publish t0 =>
      simp only [monStep] at h
      split at h
      · injection h with h; subst h; exact ⟨hd, hr, rfl⟩
      · cases h
  | closeEc =>
      simp only [monStep] at h
      split at h
      · injection h with h; subst h; exact ⟨hd, hr, rfl⟩
      · cases h
  | closeDone =>
      simp only [monStep] at h
      split at h
      · injection h with h; subst h; exact ⟨rfl, hr, rfl⟩
      · cases h
  | selectCancel =>
      simp only [monStep] at h
      split at h
      · injection h with h
        subst h
        unfold cancellerCancelStep
        split_ifs
        · refine ⟨hd, hr, ?_⟩
          simp only [appendSig, hr]
          exact deliveredCount_append_false s.sigLog SigKind.immediateKill
        · refine ⟨hd, hr, ?_⟩
          simp only [appendSig, hr]
          exact deliveredCount_append_false s.sigLog SigKind.graceful
        · refine ⟨hd, hr, ?_⟩
          simp only [appendSig, hr]
          exact deliveredCount_append_false s.sigLog SigKind.graceful
      · cases h
  | selectDone =>
      simp only [monStep] at h
      split at h
      · injection h with h; subst h; exact ⟨hd, hr, rfl⟩
      · cases h
  | timerFire =>
      simp only [monStep] at h
      split at h
      · injection h with h; subst h; exact ⟨hd, hr, rfl⟩
      · cases h
  | innerTimer =>
      simp only [monStep] at h
      split at h
      · injection h with h
        subst h
        refine ⟨hd, hr, ?_⟩
        simp only [appendSig, hr]
        exact deliveredCount_append_false s.sigLog SigKind.timerKill
      · cases h
  | innerDone =>
      simp only [monStep] at h
      split at h
      · injection h with h; subst h; exact ⟨hd, hr, rfl⟩
      · cases h

/-! ## Claim theorems -/

/-- Claim C1, counterexample to the claim as stated: Go select has no
priority between ready cases, so after the reaper has closed waitDone (and
the context is cancelled) the canceller can still take the cancellation
branch of its outer select and invoke the graceful termination-signal call.
The trace below reaches a state with waitDone closed and no signal call
made, from which one enabled canceller step makes the graceful signal call
(refused by the process handle, hence delivered = false). -/
theorem monitor_cancel_after_done_cex :
    (runTrace cfgTerm 1
        [MonAction.envCancel, MonAction.reap none, MonAction.publish 0,
         MonAction.closeEc, MonAction.closeDone] initState
      = some c1S5)
    ∧ c1S5.doneClosed = true
    ∧ c1S5.sigLog = []
    ∧ monStep cfgTerm 1 MonAction.selectCancel c1S5 = some c1S6
    ∧ c1S6.sigLog = [{ kind := SigKind.graceful, delivered := false }] := by
  decide

/-- Claim C1 (amended): once the waitDone marker has been closed the process
has already been reaped, so although the canceller may still invoke a
termination-signal call (the select chooses among ready cases with no
priority), every such call is refused by the process handle
(os.Process.Signal after Wait) and no signal is ever delivered to the
process after it has been reaped: along any continuation of such a state
the number of delivered signals never grows. -/
theorem monitor_no_signal_delivered_after_done (cfg : MonitorConfig) (pid : Int)
    (s t : MonState) (acts : List MonAction) (hs : MonReachable cfg pid s)
    (hdone : s.doneClosed = true) (ht : runTrace cfg pid acts s = some t) :
    deliveredCount t.sigLog = deliveredCount s.sigLog := by
  have hr : s.reaped = true := (monInv_reachable cfg pid s hs).1 hdone
  clear hs
  induction acts generalizing s with
  | nil =>
      simp only [runTrace] at ht
      injection ht with ht
      rw [ht]
  | cons a rest ih =>
      simp only [runTrace] at ht
      cases hstep : monStep cfg pid a s with
      | none => rw [hstep] at ht; cases ht
      | some s1 =>
          rw [hstep] at ht
          obtain ⟨hd1, hr1, hcnt⟩ :=
            monStep_preserves_after_done cfg pid a s s1 hstep hr hdone
          rw [ih s1 hd1 ht hr1, hcnt]

/-- Claim C1 witness: the amended theorem applied to the counterexample
state: the canceller step after waitDone closed delivers nothing. -/
theorem monitor_no_signal_delivered_after_done_witness :
    deliveredCount c1S6.sigLog = deliveredCount c1S5.sigLog :=
  monitor_no_signal_delivered_after_done cfgTerm 1 c1S5 c1S6
    [MonAction.selectCancel]
    ⟨[MonAction.envCancel, MonAction.reap none, MonAction.publish 0,
      MonAction.closeEc, MonAction.closeDone], by decide⟩
    (by decide) (by decide)

/-- Claim C2: in every reachable state of a successful Start, at most one
Exit record has been sent and the channel closed at most once; a record is
only ever sent after the reap; the channel is only closed after the record
was sent; and when the reaper has finished (every termination path funnels
there) exactly one record was sent and the channel closed exactly once. -/
theorem monitor_single_delivery_then_close (cfg : MonitorConfig) (pid : Int)
    (s : MonState) (h : MonReachable cfg pid s) :
    s.published.length ≤ 1
    ∧ s.ecCloseCount ≤ 1
    ∧ (s.published ≠ [] → s.reaped = true)
    ∧ (s.ecClosed = true → s.published.length = 1)
    ∧ (s.rpc = ReaperPC.finished →
        s.published.length = 1 ∧ s.ecCloseCount = 1 ∧ s.ecClosed = true) := by
  obtain ⟨i1, i2, i3, i4, i5, i6, i7, i8, i9, i10, i11, i12⟩ :=
    monInv_reachable cfg pid s h
  have hlen : s.published.length ≤ 1 := by
    cases hrpc : s.rpc with
    | atWait => simp [(i2 hrpc).1]
    | atPublish => simp [(i3 hrpc).1]
    | atCloseEc => exact le_of_eq (i4 hrpc).1
    | atCloseDone => exact le_of_eq (i5 hrpc).1
    | finished => exact le_of_eq (i6 hrpc).1
  have hcc : s.ecCloseCount ≤ 1 := by
    rw [i7]
    split <;> simp
  have hpub : s.published ≠ [] → s.reaped = true := by
    intro hne
    cases hrpc : s.rpc with
    | atWait => exact absurd (i2 hrpc).1 hne
    | atPublish => exact (i3 hrpc).2.1
    | atCloseEc => exact (i4 hrpc).2.1
    | atCloseDone => exact (i5 hrpc).2.1
    | finished => exact (i6 hrpc).2.1
  have hec : s.ecClosed = true → s.published.length = 1 := by
    intro hecl
    cases hrpc : s.rpc with
    | atWait => rw [(i2 hrpc).2.2.1] at hecl; cases hecl
    | atPublish => rw [(i3 hrpc).2.2.1] at hecl; cases hecl
    | atCloseEc => rw [(i4 hrpc).2.2.1] at hecl; cases hecl
    | atCloseDone => exact (i5 hrpc).1
    | finished => exact (i6 hrpc).1
  refine ⟨hlen, hcc, hpub, hec, fun hf => ⟨(i6 hf).1, ?_, (i6 hf).2.2.1⟩⟩
  rw [i7, (i6 hf).2.2.1]
  simp

/-- Claim C2 witness: the theorem at the state reached by a natural exit. -/
theorem monitor_single_delivery_witness :
    c2S.published.length ≤ 1
    ∧ c2S.ecCloseCount ≤ 1
    ∧ (c2S.published ≠ [] → c2S.reaped = true)
    ∧ (c2S.ecClosed = true → c2S.published.length = 1)
    ∧ (c2S.rpc = ReaperPC.finished →
        c2S.published.length = 1 ∧ c2S.ecCloseCount = 1 ∧ c2S.ecClosed = true) :=
  monitor_single_delivery_then_close cfgTerm 1 c2S
    ⟨[MonAction.reap none, MonAction.publish 5, MonAction.closeEc,
      MonAction.closeDone], by decide⟩

/-- Claim C3: the published Exit record derives status and signal from the
wait result exactly as monitor.go does: status 0 and no signal when Wait
returns no error; the decoded exit status and decoded signal when the error
is an ExitError exposing a syscall.WaitStatus; and the default status 255
with no signal for an ExitError without a WaitStatus or any other error. -/
theorem monitor_exit_status_derivation (t : Nat) (p : Int) (w : Nat) :
    mkExit t p none = { timestamp := t, pid := p, status := 0, signal := none }
    ∧ mkExit t p (some (WaitErr.exitError (some w)))
        = { timestamp := t, pid := p, status := wsExitStatus w,
            signal := some (wsSignal w) }
    ∧ mkExit t p (some (WaitErr.exitError none))
        = { timestamp := t, pid := p, status := 255, signal := none }
    ∧ mkExit t p (some WaitErr.other)
        = { timestamp := t, pid := p, status := 255, signal := none } :=
  ⟨rfl, rfl, rfl, rfl⟩

/-- Claim C4: whenever the canceller observes cancellation strictly before
the done marker (it takes the cancellation branch of the outer select),
exactly one graceful signal call is made when one is configured and no
immediate kill, and exactly one immediate kill and nothing else when none
is configured; the timer-driven kill is made exactly once when the inner
select observes the timer before done, and never when it observes done
first; and a canceller that never observes cancellation makes no signal
call at all. -/
theorem monitor_cancel_escalation (cfg : MonitorConfig) (pid : Int) (s : MonState)
    (h : MonReachable cfg pid s) :
    (s.tookCancelBranch = false → s.sigLog = [])
    ∧ (s.tookCancelBranch = true → cfg.defaultSignal ≠ none →
        kindCount s.sigLog SigKind.graceful = 1
        ∧ kindCount s.sigLog SigKind.immediateKill = 0)
    ∧ (s.tookCancelBranch = true → cfg.defaultSignal = none →
        kindCount s.sigLog SigKind.immediateKill = 1
        ∧ kindCount s.sigLog SigKind.graceful = 0
        ∧ kindCount s.sigLog SigKind.timerKill = 0)
    ∧ (s.innerTookTimer = some true → kindCount s.sigLog SigKind.timerKill = 1)
    ∧ (s.innerTookTimer = some false → kindCount s.sigLog SigKind.timerKill = 0) := by
  obtain ⟨_, _, _, _, _, _, _, _, i9, _, _, i12⟩ := monInv_reachable cfg pid s h
  refine ⟨?_, ?_, ?_, ?_, ?_⟩
  · intro htk
    rw [htk] at i9
    simpa [expectedLog] using i9
  · intro htk hds
    rcases hg : cfg.defaultSignal with _ | g
    · exact absurd hg hds
    rw [htk, hg] at i9
    unfold kindCount
    rw [i9]
    rcases hi : s.innerTookTimer with _ | b
    · simp [expectedLog]
    · rcases b
      · simp [expectedLog]
      · simp [expectedLog]
  · intro htk hds
    rw [htk, hds] at i9
    unfold kindCount
    rw [i9]
    simp [expectedLog]
  · intro hi
    obtain ⟨hfin, htk, hds⟩ := i12 (by rw [hi]; simp)
    rcases hg : cfg.defaultSignal with _ | g
    · exact absurd hg hds
    rw [htk, hg, hi] at i9
    unfold kindCount
    rw [i9]
    simp [expectedLog]
  · intro hi
    obtain ⟨hfin, htk, hds⟩ := i12 (by rw [hi]; simp)
    rcases hg : cfg.defaultSignal with _ | g
    · exact absurd hg hds
    rw [htk, hg, hi] at i9
    unfold kindCount
    rw [i9]
    simp [expectedLog]

/-- Claim C4 witness: cancellation observed, graceful signal, timer expiry,
timer-driven kill: exactly one graceful call, no immediate kill, exactly
one timer-driven kill. -/
theorem monitor_cancel_escalation_witness :
    kindCount c4S.sigLog SigKind.graceful = 1
    ∧ kindCount c4S.sigLog SigKind.immediateKill = 0
    ∧ kindCount c4S.sigLog SigKind.timerKill = 1 := by
  have h := monitor_cancel_escalation cfgTerm 1 c4S
    ⟨[MonAction.envCancel, MonAction.selectCancel, MonAction.timerFire,
      MonAction.innerTimer], by decide⟩
  exact ⟨(h.2.1 (by decide) (by decide)).1, (h.2.1 (by decide) (by decide)).2,
    h.2.2.2.1 (by decide)⟩

/-- Claim C5: a telemetry stream of well-formed records interleaved with
malformed ones and ending in end-of-stream delivers exactly the well-formed
records, in order; the loop continues past every malformed record (the
channel stays open) until end-of-stream. -/
theorem events_resilient_delivery (pre post : List DecodeRes)
    (h : ∀ r ∈ pre, r ≠ DecodeRes.eofErr) :
    eventLoop (pre ++ DecodeRes.eofErr :: post) = okEvents pre
    ∧ (∀ b rest, eventLoop (DecodeRes.decodeErr b :: rest) = eventLoop rest) := by
  have main : ∀ l : List DecodeRes, (∀ r ∈ l, r ≠ DecodeRes.eofErr) →
      eventLoop (l ++ DecodeRes.eofErr :: post) = okEvents l := by
    intro l
    induction l with
    | nil => intro _; rfl
    | cons r rest ih =>
        intro h2
        have hrest : ∀ x ∈ rest, x ≠ DecodeRes.eofErr :=
          fun x hx => h2 x (List.mem_cons_of_mem r hx)
        cases r with
        | ok e =>
            simp only [List.cons_append, eventLoop, okEvents]
            exact congrArg (List.cons e) (ih hrest)
        | eofErr => exact absurd rfl (h2 _ (List.mem_cons_self _ _))
        | decodeErr b =>
            simp only [List.cons_append, eventLoop, okEvents]
            exact ih hrest
  exact ⟨main pre h, fun b rest => rfl⟩

/-- Claim C5 witness: two good records around one malformed record, then
end-of-stream: both events delivered, in order. -/
theorem events_resilient_delivery_witness :
    eventLoop [DecodeRes.ok evA, DecodeRes.decodeErr false, DecodeRes.ok evB,
        DecodeRes.eofErr]
      = okEvents [DecodeRes.ok evA, DecodeRes.decodeErr false, DecodeRes.ok evB]
    ∧ okEvents [DecodeRes.ok evA, DecodeRes.decodeErr false, DecodeRes.ok evB]
      = [evA, evB] := by
  have h := events_resilient_delivery
    [DecodeRes.ok evA, DecodeRes.decodeErr false, DecodeRes.ok evB] [] (by decide)
  exact ⟨h.1, rfl⟩

/-- Claim C6, counterexample to the claim as stated: the loop only compares
the decode error against io.EOF, so an I/O-level fatal read error (the
decodeErr true below) does not terminate the decode loop: a record arriving
after it is still delivered, while the claim requires the channel to be
closed with no further records. -/
theorem events_fatal_io_error_cex :
    eventLoop [DecodeRes.ok evA, DecodeRes.decodeErr true, DecodeRes.ok evB,
        DecodeRes.eofErr] = [evA, evB]
    ∧ ([evA, evB] : List Event) ≠ [evA] := by
  decide

/-- Claim C6 (amended): only io.EOF terminates the decode loop; every other
decode error, including an I/O-level read failure of the underlying pipe,
is logged and the loop continues with the next decode result.  When the
loop does return, the deferred cleanup closes the channel (over which only
Event values, never errors, were sent) and releases the pipe and the
process handle. -/
theorem events_only_eof_terminates (l : List DecodeRes) (b : Bool) :
    eventLoop (DecodeRes.decodeErr b :: l) = eventLoop l
    ∧ eventLoop (DecodeRes.eofErr :: l) = []
    ∧ runEventsLoop l
        = { delivered := eventLoop l, channelClosed := true,
            pipeClosed := true, procReaped := true } :=
  ⟨rfl, rfl, rfl⟩

/-- Claim C7, counterexample to the claim as stated: a process killed by a
signal (raw Linux wait status 9, SIGKILL) yields ws.ExitStatus() = -1, so
the monitor publishes an Exit record whose status is -1, outside 0..255. -/
theorem monitor_status_out_of_range_cex :
    (runTrace cfgTerm 1
        [MonAction.reap (some (WaitErr.exitError (some 9))), MonAction.publish 0,
         MonAction.closeEc, MonAction.closeDone] initState = some c7S)
    ∧ c7S.published.map Exit.status = [-1]
    ∧ ¬ (0 ≤ (-1 : Int)) := by
  decide

/-- Claim C7 (amended): every Exit record ever published by the monitor has
a status in -1..255: 0..255 for a normal exit or the 255 default, and -1
exactly when the decoded wait status is not a normal exit (signal-caused
termination). -/
theorem monitor_exit_status_bounds (cfg : MonitorConfig) (pid : Int)
    (s : MonState) (h : MonReachable cfg pid s) :
    ∀ e ∈ s.published, -1 ≤ e.status ∧ e.status ≤ 255 := by
  obtain ⟨_, _, _, _, _, _, _, i8, _, _, _, _⟩ := monInv_reachable cfg pid s h
  exact i8

/-- Claim C7 witness: the bound at the published record of a signal-killed
process. -/
theorem monitor_exit_status_bounds_witness :
    -1 ≤ (Exit.mk 0 1 (-1) (some 9)).status
    ∧ (Exit.mk 0 1 (-1) (some 9)).status ≤ 255 :=
  monitor_exit_status_bounds cfgTerm 1 c7S
    ⟨[MonAction.reap (some (WaitErr.exitError (some 9))), MonAction.publish 0,
      MonAction.closeEc, MonAction.closeDone], by decide⟩
    (Exit.mk 0 1 (-1) (some 9)) (by decide)

/-- Claim C8: when starting the subprocess fails, monitor Start returns the
error with no channel and spawns no goroutine; when starting the telemetry
subprocess fails after its stdout pipe was opened, the pipe is closed
before the failure is returned (and a pipe-opening failure returns at once
with nothing opened). -/
theorem start_failure_no_tasks_and_pipe_closed (e : GoErr) :
    monitorStartOutcome (some e)
      = { channel := false, err := some e, goroutines := 0 }
    ∧ eventsStartOutcome none (some e)
        = { channel := false, err := some e, pipeOpened := true,
            pipeClosed := true, loopSpawned := false }
    ∧ eventsStartOutcome (some e) none
        = { channel := false, err := some e, pipeOpened := false,
            pipeClosed := false, loopSpawned := false } :=
  ⟨rfl, rfl, rfl⟩

/-- Claim C9: extracting the numeric status from a completed invocation
yields 0 for a nil error, the carried status for a command-exit failure
(ExitError), and the sentinel -1 for any generic failure. -/
theorem extract_status_uniform (st : Int) (c : Nat) :
    extractStatus none = 0
    ∧ extractStatus (some (InvocationError.exitError st)) = st
    ∧ extractStatus (some (InvocationError.generic c)) = -1 :=
  ⟨rfl, rfl, rfl⟩

/-- Claim C10: the monitor Wait returns the received Exit record's status
together with a nil error, whatever the record holds; two records with the
same status but different signal (or timestamp, or pid) fields yield the
same Wait result, so the signal field is discarded. -/
theorem monitor_wait_status_and_nil_error (e : Exit) (t1 t2 : Nat)
    (p1 p2 st : Int) (sg1 sg2 : Option Int) :
    monitorWait e = (e.status, none)
    ∧ monitorWait { timestamp := t1, pid := p1, status := st, signal := sg1 }
        = monitorWait { timestamp := t2, pid := p2, status := st, signal := sg2 } :=
  ⟨rfl, rfl⟩
